import Mathlib

/-!
A shallow embedding of the `schedule` library (src/schedule/__init__.py):
an in-process periodic job scheduler.  Python datetimes are modelled as
whole-second timestamps on a proleptic calendar whose epoch day 0 is a
Monday; Python exceptions are modelled with `Except String`; the two calls
into the host random source (`random.sample`, `random.randint`) are
modelled as an injected oracle `Rand`.
-/

namespace Schedule

/-- A wall-clock instant: whole seconds since an epoch whose day 0 is a
Monday (so `isoweekday` below matches Python's Monday=1..Sunday=7). -/
structure DateTime where
  t : Int
deriving DecidableEq

/-- Python `datetime.date()`: the calendar day, as days since the epoch. -/
def DateTime.day (d : DateTime) : Int := d.t / 86400

/-- Seconds elapsed since midnight of `d`'s day. -/
def DateTime.sod (d : DateTime) : Nat := (d.t % 86400).toNat

/-- Python `datetime.isoweekday()`: Monday=1 .. Sunday=7. -/
def DateTime.isoweekday (d : DateTime) : Nat := ((d.t / 86400) % 7).toNat + 1

/-- Python `datetime.time`: a time of day (whole seconds). -/
structure TimeOfDay where
  hour : Nat
  minute : Nat
  second : Nat
  hour_lt : hour < 24
  minute_lt : minute < 60
  second_lt : second < 60

/-- Seconds since midnight represented by a time of day. -/
def TimeOfDay.toSod (tm : TimeOfDay) : Nat :=
  tm.hour * 3600 + tm.minute * 60 + tm.second

/-- Python compares `time` objects field-lexicographically. -/
def TimeOfDay.ltB (a b : TimeOfDay) : Bool :=
  decide (a.hour < b.hour) ||
    (decide (a.hour = b.hour) &&
      (decide (a.minute < b.minute) ||
        (decide (a.minute = b.minute) && decide (a.second < b.second))))

/-- Python `datetime.time()`: the time-of-day component of an instant. -/
def DateTime.timeOfDay (d : DateTime) : TimeOfDay :=
  ⟨d.sod / 3600, d.sod % 3600 / 60, d.sod % 60,
   by
     have h1 := Int.emod_lt_of_pos d.t (b := 86400) (by decide)
     have h2 := Int.emod_nonneg d.t (b := 86400) (by decide)
     simp only [DateTime.sod]
     omega,
   by omega, by omega⟩

/-- Python `datetime.replace(hour=.., minute=.., second=.., microsecond=0)`:
keep the calendar day, overwrite the time of day. -/
def DateTime.replaceTime (d : DateTime) (tm : TimeOfDay) : DateTime :=
  ⟨d.day * 86400 + (tm.toSod : Int)⟩

/-- Build a time of day from seconds since midnight, as Python `.time()`
does on a datetime (the `% 24` is vacuous for arguments below 86400). -/
def sodToTime (n : Nat) : TimeOfDay :=
  ⟨n / 3600 % 24, n % 3600 / 60, n % 60, by omega, by omega, by omega⟩

/-- The five recurrence units accepted by `_schedule_next_run`. -/
inductive TimeUnit where
  | seconds | minutes | hours | days | weeks
deriving DecidableEq

/-- `datetime.timedelta(**{unit: 1})` in seconds. -/
def TimeUnit.toSeconds : TimeUnit → Nat
  | .seconds => 1
  | .minutes => 60
  | .hours => 3600
  | .days => 86400
  | .weeks => 604800

/-- The injected random source (design note: the host's `random` module as
an explicit oracle).  `sample g` models `random.sample(g, 1)[0]`;
`randint lo hi` models `random.randint(lo, hi)` for `lo <= hi` (the
`hi < lo` failure is handled at the call site). -/
structure Rand where
  sample : List Nat → Nat
  randint : Int → Int → Int

/-- The `Job` entity of `Job.__init__` (src lines 112-122).  The bound
callable `job_func` is abstracted to the outcome of invoking it:
`none` = never bound by `do()`, `some r` = bound, invocation yields `r`. -/
structure Job where
  interval : Nat
  job_func : Option (Except String Unit)
  unit : Option TimeUnit
  at_time : Option TimeOfDay
  between_times : Option (TimeOfDay × TimeOfDay)
  run_days : List (List Nat)
  start_run : Option DateTime
  last_run : Option DateTime
  next_run : Option DateTime
  period : Option Nat

/-- `Job.__init__(interval)`: every field empty except the interval. -/
def Job.init (interval : Nat) : Job :=
  ⟨interval, none, none, none, none, [], none, none, none, none⟩

/-- `Job.WEEKDAYS` (src lines 109-110), in dict insertion order. -/
def WEEKDAYS : List (List Char × Nat) :=
  [("sunday".toList, 0), ("monday".toList, 1), ("tuesday".toList, 2),
   ("wednesday".toList, 3), ("thursday".toList, 4), ("friday".toList, 5),
   ("saturday".toList, 6)]

/-- Python `str.split('|')` on a character list. -/
def splitPipe : List Char → List (List Char)
  | [] => [[]]
  | c :: rest =>
    let r := splitPipe rest
    if c = '|' then [] :: r
    else
      match r with
      | g :: gs => (c :: g) :: gs
      | [] => [[c]]

/-- ASCII `str.lower` on one character (the weekday names are all ASCII). -/
def lowerChar (c : Char) : Char :=
  if c.toNat ≥ 65 ∧ c.toNat ≤ 90 then Char.ofNat (c.toNat + 32) else c

/-- One OR-group built by `Job.on` for one argument string: the set of
weekday numbers whose name has `d.lower()` as a leading substring
(src lines 230-234; the Python `set` is modelled as a deduplicated list). -/
def dayOrGroup (day : List Char) : List Nat :=
  (((splitPipe day).map (fun d =>
      (WEEKDAYS.filter (fun p => List.isPrefixOf (d.map lowerChar) p.1)).map
        (fun p => p.2))).flatten).dedup

/-- `Job.on(*days)` (src lines 214-239): build one OR-group per argument,
keep only the non-empty groups, and replace `run_days`.  Note the method
has no failure path: unmatched strings are silently dropped. -/
def Job.on (days : List (List Char)) (j : Job) : Job :=
  { j with run_days := (days.map dayOrGroup).filter (fun g => !g.isEmpty) }

/-- The `seconds` unit property (src lines 169-172). -/
def Job.seconds (j : Job) : Job := { j with unit := some TimeUnit.seconds }

/-- The `minutes` unit property (src lines 179-182). -/
def Job.minutes (j : Job) : Job := { j with unit := some TimeUnit.minutes }

/-- The `hours` unit property (src lines 189-192). -/
def Job.hours (j : Job) : Job := { j with unit := some TimeUnit.hours }

/-- The `days` unit property (src lines 199-202). -/
def Job.days (j : Job) : Job := { j with unit := some TimeUnit.days }

/-- The `weeks` unit property (src lines 209-212). -/
def Job.weeks (j : Job) : Job := { j with unit := some TimeUnit.weeks }

/-- `Job.at(time_str)` (src lines 241-252), after parsing `"H:M"` into the
two integers: asserts the unit is days and the clock bounds, then stores
`time(hour, minute)` (seconds zero). -/
def Job.at (hour minute : Nat) (j : Job) : Except String Job :=
  if j.unit = some TimeUnit.days then
    if h : hour ≤ 23 ∧ minute ≤ 59 then
      Except.ok { j with at_time := some ⟨hour, minute, 0, by omega, by omega, by decide⟩ }
    else Except.error "AssertionError"
  else Except.error "AssertionError"

/-- `Job.between(time_str)` (src lines 254-259), after `strptime` has
parsed a well-formed `"HH:MM-HH:MM"` string into its two clock times:
store the pair unconditionally (no validation of the window order). -/
def Job.between (s e : TimeOfDay) (j : Job) : Job :=
  { j with between_times := some (s, e) }

/-- `Job.starting(date_str)` (src lines 261-263), after parsing: store the
start datetime (midnight of the parsed date). -/
def Job.starting (d : DateTime) (j : Job) : Job :=
  { j with start_run := some d }

/-- Src lines 305-307: drop from the working copy of `run_days` every
group that the loop finds containing `last_run.isoweekday()` (each
`list.remove` call deletes the first equal occurrence from the copy). -/
def removeRunGroups (w : Nat) (rds : List (List Nat)) : List (List Nat) :=
  rds.foldl (fun acc day => if w ∈ day then acc.erase day else acc) rds

/-- Src lines 300-328, the weekday-constrained branch of
`_schedule_next_run`: rebase `starting` on `last_run` when present,
exclude already-fired groups, pick one random representative per group,
take the minimal forward day delta, apply the same-day bump, and return
the new `next_run` (time of day not yet applied). -/
def weekdayNextRun (rand : Rand) (j : Job) (unit : TimeUnit) (starting : DateTime) : DateTime :=
  let stRuns : DateTime × List (List Nat) :=
    match j.last_run with
    | none => (starting, j.run_days)
    | some lr => (lr, removeRunGroups lr.isoweekday j.run_days)
  let st : DateTime := stRuns.1
  let days : List Nat := stRuns.2.map rand.sample
  let deltas : List Int := days.map (fun i => ((i : Int) - (st.isoweekday : Int)) % 7)
  let daysDelta : Int :=
    match deltas with
    | [] => 0
    | d :: ds => ds.foldl min d
  let bump : Int :=
    match unit with
    | TimeUnit.days => 7
    | TimeUnit.weeks => (j.interval : Int) * 7
    | _ => daysDelta
  let daysDelta : Int :=
    match j.last_run with
    | some lr => if daysDelta = 0 ∧ lr.day = st.day then bump else daysDelta
    | none => daysDelta
  ⟨st.t + daysDelta * 86400⟩

/-- Src lines 330-335: when a window is configured, draw a whole-second
offset in `[0, duration]` and derive the effective `at_time`; a negative
duration makes `random.randint` raise `ValueError`. -/
def resolveAtTime (rand : Rand) (j : Job) : Except String (Option TimeOfDay) :=
  match j.between_times with
  | none => Except.ok j.at_time
  | some (s, e) =>
    let dur : Int := (e.toSod : Int) - (s.toSod : Int)
    if dur < 0 then Except.error "ValueError: empty range for randrange"
    else Except.ok (some (sodToTime (((s.toSod : Int) + rand.randint 0 dur) % 86400).toNat))

/-- Src lines 336-345: overwrite the time of day of `next_run` with the
resolved `at_time`, and on a first computation with no weekday constraint
move one day back when that time is still ahead of the current clock. -/
def applyAtTime (now : DateTime) (j : Job) (atTime : Option TimeOfDay) (nr : DateTime) : DateTime :=
  match atTime with
  | none => nr
  | some tm =>
    let r := nr.replaceTime tm
    if j.last_run = none ∧ j.run_days = [] ∧ TimeOfDay.ltB now.timeOfDay tm = true
    then ⟨r.t - 86400⟩ else r

/-- `Job._schedule_next_run` (src lines 290-345): the recurrence engine.
`now` is the single wall-clock read of the computation. -/
def Job.schedule_next_run (now : DateTime) (rand : Rand) (j : Job) : Except String Job :=
  match j.unit with
  | none => Except.error "AssertionError: invalid unit"
  | some unit =>
    let starting := j.start_run.getD now
    let period := j.interval * unit.toSeconds
    let base : DateTime := ⟨starting.t + (period : Int)⟩
    let nr1 : DateTime :=
      if j.run_days.isEmpty then base
      else weekdayNextRun rand j unit starting
    match resolveAtTime rand j with
    | Except.error e => Except.error e
    | Except.ok atTime =>
      Except.ok { j with period := some period, at_time := atTime,
                         next_run := some (applyAtTime now j atTime nr1) }

/-- `Job.do(job_func, ...)` (src lines 265-276): bind the work unit
(abstracted to its invocation outcome) and compute the first `next_run`. -/
def Job.doBind (res : Except String Unit) (now : DateTime) (rand : Rand) (j : Job) : Except String Job :=
  Job.schedule_next_run now rand { j with job_func := some res }

/-- `Job.should_run` (src lines 278-281): `now >= next_run`; comparing
with an absent `next_run` is a `TypeError` in Python 3. -/
def Job.should_run (now : DateTime) (j : Job) : Except String Bool :=
  match j.next_run with
  | none => Except.error "TypeError: datetime-NoneType comparison"
  | some nr => Except.ok (decide (nr.t ≤ now.t))

/-- `Job.run` (src lines 283-288) as a state-and-exception step: invoke
the callable, then set `last_run` and recompute `next_run`.  The first
component is the job state after the call (unchanged when the invocation
raises before the assignments), the second the propagated outcome. -/
def Job.run (now : DateTime) (rand : Rand) (j : Job) : Job × Except String Unit :=
  match j.job_func with
  | none => (j, Except.error "TypeError: NoneType object is not callable")
  | some (Except.error e) => (j, Except.error e)
  | some (Except.ok _) =>
    let j1 := { j with last_run := some now }
    match Job.schedule_next_run now rand j1 with
    | Except.error e => (j1, Except.error e)
    | Except.ok j2 => (j2, Except.ok ())

/-- Evaluate a fallible function on every element in order, propagating
the first raised exception (the evaluation of the `should_run` generator
while `sorted` consumes it, src line 59). -/
def mapExcept {α β : Type} (f : α → Except String β) : List α → Except String (List β)
  | [] => Except.ok []
  | x :: xs =>
    match f x with
    | Except.error e => Except.error e
    | Except.ok b =>
      match mapExcept f xs with
      | Except.error e => Except.error e
      | Except.ok bs => Except.ok (b :: bs)

/-- `Job.__lt__` (src lines 124-127): compare by `next_run`; in Python 3
a comparison involving an absent `next_run` raises `TypeError`. -/
def jobLt (a b : Job) : Except String Bool :=
  match a.next_run, b.next_run with
  | some x, some y => Except.ok (decide (x.t < y.t))
  | _, _ => Except.error "TypeError: NoneType comparison"

/-- Python `min(jobs)`: keep the first element, replace it whenever a
later element compares strictly smaller. -/
def minJob : List Job → Except String Job
  | [] => Except.error "ValueError: min of empty sequence"
  | j :: rest =>
    rest.foldlM (fun acc x => do
      let lt ← jobLt x acc
      pure (if lt then x else acc)) j

/-- `Scheduler.next_run` (src lines 94-99): `None` on an empty registry,
otherwise the `next_run` of the minimal job. -/
def Scheduler.next_run (jobs : List Job) : Except String (Option DateTime) :=
  if jobs.isEmpty then Except.ok none
  else (minJob jobs).map Job.next_run

/-- `Scheduler.idle_seconds` (src lines 101-104): subtract `now` from the
registry `next_run`; when that is `None` the subtraction is a `TypeError`. -/
def Scheduler.idle_seconds (now : DateTime) (jobs : List Job) : Except String Int := do
  match ← Scheduler.next_run jobs with
  | none => Except.error "TypeError: NoneType minus datetime"
  | some d => Except.ok (d.t - now.t)

/-- `Job.__lt__` as the Boolean key used while sorting the due list; every
job in that list has already passed `should_run`, so both `next_run`
fields are present there. -/
def jobLtB (a b : Job) : Bool :=
  match a.next_run, b.next_run with
  | some x, some y => decide (x.t < y.t)
  | _, _ => false

/-- Insert an indexed job into an already sorted run list, keeping the
earlier-registered job first among equal `next_run` keys (Python's sort
is stable). -/
def insertByNextRun (p : Nat × Job) : List (Nat × Job) → List (Nat × Job)
  | [] => [p]
  | q :: qs => if jobLtB q.2 p.2 then q :: insertByNextRun p qs else p :: q :: qs

/-- `sorted(runnable_jobs)` (src line 60) as a stable insertion sort over
(registry index, job) pairs. -/
def sortByNextRun : List (Nat × Job) → List (Nat × Job)
  | [] => []
  | p :: ps => insertByNextRun p (sortByNextRun ps)

/-- Run the sorted due jobs one after the other, writing each result back
at its registry index and stopping at the first raised exception. -/
def runLoop (now : DateTime) (rand : Rand) : List (Nat × Job) → List Job → List Job × Except String Unit
  | [], acc => (acc, Except.ok ())
  | (i, j) :: rest, acc =>
    match Job.run now rand j with
    | (j2, Except.error e) => (acc.set i j2, Except.error e)
    | (j2, Except.ok _) => runLoop now rand rest (acc.set i j2)

/-- `Scheduler.run_pending` (src lines 50-61): evaluate `should_run` for
every job (the generator is consumed whole by `sorted`), then run the due
jobs in ascending `next_run` order.  `now` is held fixed for the sweep
(the sweep is synchronous; all jobs see the same wall clock instant). -/
def Scheduler.run_pending (now : DateTime) (rand : Rand) (jobs : List Job) : List Job × Except String Unit :=
  match mapExcept (fun j => Job.should_run now j) jobs with
  | Except.error e => (jobs, Except.error e)
  | Except.ok flags =>
    let due := jobs.enum.filter (fun p => flags.getD p.1 false)
    runLoop now rand (sortByNextRun due) jobs

/-- `Scheduler.run_all` (src lines 63-73): run every job in registry
order regardless of due state, stopping at the first raised exception;
the inter-job `time.sleep(delay_seconds)` has no effect on job state. -/
def Scheduler.run_all (now : DateTime) (rand : Rand) (delay_seconds : Nat) : List Job → List Job × Except String Unit
  | [] => ([], Except.ok ())
  | j :: rest =>
    match Job.run now rand j with
    | (j2, Except.error e) => (j2 :: rest, Except.error e)
    | (j2, Except.ok _) =>
      let pr := Scheduler.run_all now rand delay_seconds rest
      (j2 :: pr.1, pr.2)

/-- `Scheduler.clear` (src lines 75-77). -/
def Scheduler.clear (_jobs : List Job) : List Job := []

/-- `Scheduler.every` (src lines 79-83): append a fresh unconfigured job
and hand it back for chained configuration. -/
def Scheduler.every (jobs : List Job) (interval : Nat) : List Job × Job :=
  (jobs ++ [Job.init interval], Job.init interval)

/-- `Scheduler.on` (src lines 85-92): `every()` with unit forced to days,
then `Job.on` applied. -/
def Scheduler.on (jobs : List Job) (days : List (List Char)) : List Job × Job :=
  let j := Job.on days { Job.init 1 with unit := some TimeUnit.days }
  (jobs ++ [j], j)

/-! Concrete instances used to evaluate the embedding on specific inputs. -/

/-- A deterministic instance of the random oracle: `sample` picks the
first listed element, `randint lo hi` returns `lo`. -/
def rand0 : Rand := ⟨fun g => g.headD 0, fun lo _ => lo⟩

/-- 23:59:00. -/
def tAt2359 : TimeOfDay := ⟨23, 59, 0, by decide, by decide, by decide⟩

/-- 10:00:00. -/
def t1000 : TimeOfDay := ⟨10, 0, 0, by decide, by decide, by decide⟩

/-- 09:00:00. -/
def t0900 : TimeOfDay := ⟨9, 0, 0, by decide, by decide, by decide⟩

/-- A weekday-constrained daily job whose `last_run` (day 1, a Tuesday,
isoweekday 2) matches both OR-groups. -/
def jobC1 : Job :=
  { Job.init 1 with unit := some TimeUnit.days, job_func := some (Except.ok ()),
                    run_days := [[2], [2, 3]], last_run := some ⟨86400⟩ }

/-- A daily job with a start date at day 0 whose `last_run` is on day 5. -/
def jobC2 : Job :=
  { Job.init 1 with unit := some TimeUnit.days, start_run := some ⟨0⟩,
                    last_run := some ⟨435600⟩ }

/-- A never-run every-2-days job with `at_time` 23:59. -/
def jobC3 : Job :=
  { Job.init 2 with unit := some TimeUnit.days, at_time := some tAt2359 }

/-- A bound job whose work unit raises `"boom"` when invoked. -/
def jobC4 : Job :=
  { Job.init 1 with job_func := some (Except.error "boom"),
                    unit := some TimeUnit.minutes, next_run := some ⟨60⟩ }

/-- A scheduled job whose `next_run` is at t = 100. -/
def jobC7 : Job :=
  { Job.init 1 with next_run := some ⟨100⟩ }

/-- An unconfigured days-unit job (no window yet). -/
def jobC9 : Job :=
  { Job.init 1 with unit := some TimeUnit.days }

/-- A never-run daily job (interval 1, no start date, no `at_time`). -/
def jobW2 : Job :=
  { Job.init 1 with unit := some TimeUnit.days, last_run := some ⟨435600⟩ }

/-- The state of `jobW2` after recomputation at t = 435600. -/
def jobW2out : Job :=
  { Job.init 1 with unit := some TimeUnit.days, last_run := some ⟨435600⟩,
                    next_run := some ⟨522000⟩, period := some 86400 }

/-- A never-run daily job (interval 1) with `at_time` 23:59. -/
def jobW3 : Job :=
  { Job.init 1 with unit := some TimeUnit.days, at_time := some tAt2359 }

/-! Helper lemmas about the embedding. -/

theorem DateTime.sod_lt (d : DateTime) : d.sod < 86400 := by
  unfold DateTime.sod
  have h1 := Int.emod_lt_of_pos d.t (b := 86400) (by decide)
  have h2 := Int.emod_nonneg d.t (b := 86400) (by decide)
  omega

theorem TimeOfDay.toSod_lt (tm : TimeOfDay) : tm.toSod < 86400 := by
  have h1 := tm.hour_lt
  have h2 := tm.minute_lt
  have h3 := tm.second_lt
  unfold TimeOfDay.toSod
  omega

theorem DateTime.replaceTime_day (d : DateTime) (tm : TimeOfDay) :
    (d.replaceTime tm).day = d.day := by
  have h := tm.toSod_lt
  show (d.t / 86400 * 86400 + (tm.toSod : Int)) / 86400 = d.t / 86400
  omega

theorem DateTime.day_add_nat_days (d : DateTime) (k : Nat) :
    DateTime.day ⟨d.t + ((k * 86400 : Nat) : Int)⟩ = d.day + k := by
  show (d.t + ((k * 86400 : Nat) : Int)) / 86400 = d.t / 86400 + (k : Int)
  push_cast
  omega

/-- If `last_run` is present, `applyAtTime` never takes the first-run
one-day shift, so the calendar day of its result is that of its input. -/
theorem applyAtTime_day_of_last_run (now : DateTime) (j : Job) (atTime : Option TimeOfDay)
    (nr : DateTime) (lr : DateTime) (hlr : j.last_run = some lr) :
    (applyAtTime now j atTime nr).day = nr.day := by
  cases atTime with
  | none => rfl
  | some tm =>
    simp only [applyAtTime]
    rw [if_neg]
    · exact DateTime.replaceTime_day nr tm
    · rw [hlr]
      simp

/-- Successful `mapExcept` output is the pointwise result of `f`. -/
theorem mapExcept_ok_pointwise {α β : Type} (f : α → Except String β) :
    ∀ (l : List α) (out : List β), mapExcept f l = Except.ok out →
      ∀ (i : Nat) (a : α), l[i]? = some a →
        ∃ b, out[i]? = some b ∧ f a = Except.ok b := by
  intro l
  induction l with
  | nil =>
    intro out _ i a ha
    simp at ha
  | cons x xs ih =>
    intro out h i a ha
    rcases hx : f x with e | b
    · simp only [mapExcept, hx] at h
      exact Except.noConfusion h
    · rcases hxs : mapExcept f xs with e | bs
      · simp only [mapExcept, hx, hxs] at h
        exact Except.noConfusion h
      · simp only [mapExcept, hx, hxs, Except.ok.injEq] at h
        subst h
        cases i with
        | zero =>
          simp at ha
          subst ha
          exact ⟨b, by simp, hx⟩
        | succ n =>
          simp only [List.getElem?_cons_succ] at ha ⊢
          exact ih bs hxs n a ha

/-- `insertByNextRun` only rearranges: its members come from the insertion. -/
theorem mem_insertByNextRun {q p : Nat × Job} :
    ∀ {l : List (Nat × Job)}, p ∈ insertByNextRun q l → p = q ∨ p ∈ l := by
  intro l
  induction l with
  | nil =>
    intro h
    simp [insertByNextRun] at h
    exact Or.inl h
  | cons r rs ih =>
    intro h
    simp only [insertByNextRun] at h
    split at h
    · rcases List.mem_cons.mp h with h1 | h1
      · exact Or.inr (List.mem_cons.mpr (Or.inl h1))
      · rcases ih h1 with h2 | h2
        · exact Or.inl h2
        · exact Or.inr (List.mem_cons.mpr (Or.inr h2))
    · rcases List.mem_cons.mp h with h1 | h1
      · exact Or.inl h1
      · exact Or.inr h1

/-- The sorted due list is made of elements of the due list. -/
theorem mem_sortByNextRun {p : Nat × Job} :
    ∀ {l : List (Nat × Job)}, p ∈ sortByNextRun l → p ∈ l := by
  intro l
  induction l with
  | nil => intro h; simp [sortByNextRun] at h
  | cons r rs ih =>
    intro h
    simp only [sortByNextRun] at h
    rcases mem_insertByNextRun h with h1 | h1
    · exact List.mem_cons.mpr (Or.inl h1)
    · exact List.mem_cons.mpr (Or.inr (ih h1))

/-- `runLoop` only writes at the registry indices it was given. -/
theorem runLoop_frame (now : DateTime) (rand : Rand) :
    ∀ (l : List (Nat × Job)) (acc : List Job) (i : Nat),
      (∀ p ∈ l, p.1 ≠ i) → ((runLoop now rand l acc).1)[i]? = acc[i]? := by
  intro l
  induction l with
  | nil => intro acc i _; rfl
  | cons p ps ih =>
    intro acc i h
    obtain ⟨idx, j⟩ := p
    have hidx : idx ≠ i := h (idx, j) (List.mem_cons_self _ _)
    simp only [runLoop]
    rcases hr : Job.run now rand j with ⟨j2, r⟩
    cases r with
    | error e =>
      simp only
      exact List.getElem?_set_ne hidx
    | ok u =>
      simp only
      rw [ih (acc.set idx j2) i (fun q hq => h q (List.mem_cons_of_mem _ hq))]
      exact List.getElem?_set_ne hidx

/-- Folding the removal step over groups that never contain `w` and start
with a `w`-free head keeps that head in place. -/
theorem foldl_erase_head (w : Nat) (day : List Nat) (hday : w ∉ day) :
    ∀ (l acc : List (List Nat)),
      l.foldl (fun acc d => if w ∈ d then acc.erase d else acc) (day :: acc)
        = day :: l.foldl (fun acc d => if w ∈ d then acc.erase d else acc) acc := by
  intro l
  induction l with
  | nil => intro acc; rfl
  | cons g gs ih =>
    intro acc
    simp only [List.foldl_cons]
    by_cases hg : w ∈ g
    · rw [if_pos hg, if_pos hg]
      have hne : ¬(day == g) = true := by
        simp only [beq_iff_eq]
        intro he
        exact hday (he ▸ hg)
      rw [List.erase_cons_tail hne]
      exact ih _
    · rw [if_neg hg, if_neg hg]
      exact ih _

/-! The claims. -/

/-- Claim C1, counterexample: with `last_run` on a Tuesday (isoweekday 2)
and the two OR-groups `{2}` and `{2,3}` both containing that weekday, the
exclusion loop of `_schedule_next_run` removes BOTH groups from the
working set, not at most one: the working set becomes empty, so the
day delta falls back to 0 and the same-day bump pushes `next_run` to
`last_run + 7 days` (t = 86400 + 604800 = 691200).  Under the claimed
behaviour one group would survive and contribute a delta. -/
theorem C1_counterexample :
    removeRunGroups 2 [[2], [2, 3]] = [] ∧
    (Job.schedule_next_run ⟨93600⟩ rand0 jobC1).map Job.next_run
      = Except.ok (some ⟨691200⟩) :=
  ⟨rfl, rfl⟩

/-- Claim C1, amended: after a run, EVERY OR-group containing
`last_run`'s isoweekday is removed from the working set of groups (the
loop `for day in self.run_days: ... run_days.remove(day)` deletes one
equal occurrence per matching group, which filters out all of them). -/
theorem C1_all_matching_groups_removed (w : Nat) (rds : List (List Nat)) :
    removeRunGroups w rds = rds.filter (fun day => decide (w ∉ day)) := by
  induction rds with
  | nil => rfl
  | cons day rest ih =>
    unfold removeRunGroups at ih ⊢
    simp only [List.foldl_cons]
    by_cases hd : w ∈ day
    · rw [if_pos hd, List.erase_cons_head]
      rw [ih]
      simp [List.filter_cons, hd]
    · rw [if_neg hd]
      rw [foldl_erase_head w day hd rest rest, ih]
      simp [List.filter_cons, hd]

/-- Claim C2, counterexample: a daily job with `start_run` at day 0 whose
`last_run` is today (day 5, t = 435600) gets `next_run = start_run +
1 day` = day 1, which is not strictly after today — the claimed guarantee
fails when `startAfter` is set (to a past date). -/
theorem C2_counterexample :
    (Job.schedule_next_run ⟨435600⟩ rand0 jobC2).map Job.next_run
      = Except.ok (some ⟨86400⟩) ∧
    ¬ DateTime.day ⟨435600⟩ < DateTime.day ⟨86400⟩ :=
  ⟨rfl, by decide⟩

/-- Claim C4: when the bound work unit raises, `Job.run` propagates that
very error and leaves the job record — in particular `last_run` and
`next_run` — exactly as it was. -/
theorem C4_error_leaves_job_unchanged (now : DateTime) (rand : Rand) (j : Job) (e : String)
    (h : j.job_func = some (Except.error e)) :
    Job.run now rand j = (j, Except.error e) := by
  simp [Job.run, h]

/-- Claim C4, witness: the theorem evaluated on the concrete `jobC4`. -/
theorem C4_witness : Job.run ⟨100⟩ rand0 jobC4 = (jobC4, Except.error "boom") :=
  C4_error_leaves_job_unchanged ⟨100⟩ rand0 jobC4 "boom" rfl

/-- Claim C5, counterexample: on an empty registry `idle_seconds` is NOT
an absent result — `self.next_run` is `None` and `None - now` raises a
`TypeError`, refuting the claim that both queries return absent. -/
theorem C5_counterexample :
    Scheduler.idle_seconds ⟨0⟩ ([] : List Job)
      = Except.error "TypeError: NoneType minus datetime" := rfl

/-- Claim C5, amended: with zero registered jobs the `next_run` query
returns an explicit absent result, but `idle_seconds` raises (it
subtracts `now` from the absent `next_run`). -/
theorem C5_empty_registry_queries :
    Scheduler.next_run ([] : List Job) = Except.ok none ∧
    ∀ now : DateTime, Scheduler.idle_seconds now ([] : List Job)
      = Except.error "TypeError: NoneType minus datetime" :=
  ⟨rfl, fun _ => rfl⟩

/-- Claim C6, counterexample: `on("xyz")` does not fail — the call is
accepted and returns the job with the unmatched argument silently
dropped (`run_days` stays empty), so the configuration error is neither
raised immediately nor ever. -/
theorem C6_counterexample : Job.on ["xyz".toList] (Job.init 1) = Job.init 1 := rfl

/-- Claim C8, counterexample: the configuration sequence
`every(1).seconds.on("monday")` is accepted and produces a job whose
`run_days` is non-empty while its unit is `seconds`, violating the
claimed invariant (`Job.on` never checks the unit). -/
theorem C8_counterexample :
    (Job.on ["monday".toList] (Job.seconds (Job.init 1))).run_days = [[1]] ∧
    (Job.on ["monday".toList] (Job.seconds (Job.init 1))).unit = some TimeUnit.seconds :=
  ⟨rfl, rfl⟩

/-- Claim C8, amended: `Job.on` leaves the unit untouched (so any unit
can coexist with a non-empty `run_days`), while the registry sugar
`Scheduler.on` does force the unit to days on the job it creates. -/
theorem C8_unit_invariant_amended :
    (∀ (days : List (List Char)) (j : Job), (Job.on days j).unit = j.unit) ∧
    (∀ (days : List (List Char)) (jobs : List Job),
      ((Scheduler.on jobs days).2).unit = some TimeUnit.days) :=
  ⟨fun _ _ => rfl, fun _ _ => rfl⟩

/-- Claim C10, counterexample: with a single `every()`-created job on
which `do()` was never called, the registry `next_run` query does NOT
fail: `min` of a one-element list performs no comparison and the query
returns the job's absent `next_run` as an absent result. -/
theorem C10_counterexample : Scheduler.next_run [Job.init 1] = Except.ok none := rfl

/-- Claim C10, amended: with an unconfigured job (absent `next_run`, no
bound callable) in the registry, `run_pending` fails in the due check,
`run_all` fails invoking the absent callable, and `idle_seconds` fails
subtracting from the absent registry `next_run`; the `next_run` query
itself fails only when `min` must compare jobs (two or more registered),
and returns absent for the singleton registry. -/
theorem C10_unconfigured_job_amended (now : DateTime) (rand : Rand) :
    (Scheduler.run_pending now rand [Job.init 1]).2
      = Except.error "TypeError: datetime-NoneType comparison" ∧
    (Scheduler.run_all now rand 0 [Job.init 1]).2
      = Except.error "TypeError: NoneType object is not callable" ∧
    Scheduler.idle_seconds now [Job.init 1]
      = Except.error "TypeError: NoneType minus datetime" ∧
    Scheduler.next_run [Job.init 1] = Except.ok none ∧
    Scheduler.next_run [Job.init 1, Job.init 1]
      = Except.error "TypeError: NoneType comparison" :=
  ⟨rfl, rfl, rfl, rfl, rfl⟩

/-- Claim C2, amended: for a days-unit job with empty `run_days`, no
start date (`startAfter` absent — with a past `startAfter` the guarantee
fails, see the counterexample), positive interval and a `last_run` on
today's date, every successful recomputation yields a `next_run` whose
calendar day is strictly after today. -/
theorem C2_no_same_day_next_run (now : DateTime) (rand : Rand) (j j2 : Job) (lr : DateTime)
    (hu : j.unit = some TimeUnit.days) (hrd : j.run_days = [])
    (hsr : j.start_run = none) (hlr : j.last_run = some lr)
    (_hday : lr.day = now.day) (hint : 1 ≤ j.interval)
    (hok : Job.schedule_next_run now rand j = Except.ok j2) :
    j2.next_run.isSome = true ∧
    now.day < DateTime.day (j2.next_run.getD ⟨0⟩) := by
  obtain ⟨iv, jf, u, at_, bt, rd, sr, lrv, nr, per⟩ := j
  simp only at hu hrd hsr hlr hint
  subst hu hrd hsr hlr
  simp only [Job.schedule_next_run, List.isEmpty, Option.getD, if_true] at hok
  rcases hres : resolveAtTime rand ⟨iv, jf, some TimeUnit.days, at_, bt, [], none, some lr, nr, per⟩
      with e | atT
  · rw [hres] at hok
    exact Except.noConfusion hok
  · rw [hres] at hok
    simp only [Except.ok.injEq] at hok
    subst hok
    constructor
    · rfl
    · simp only [Option.getD]
      rw [applyAtTime_day_of_last_run _ _ _ _ lr rfl]
      simp only [TimeUnit.toSeconds]
      rw [DateTime.day_add_nat_days now iv]
      omega

/-- Claim C2, witness: the amended theorem evaluated on a daily job that
last ran today (t = 435600, day 5) with no start date: the recomputed
`next_run` (t = 522000) is on day 6. -/
theorem C2_witness :
    jobW2out.next_run.isSome = true ∧
    DateTime.day ⟨435600⟩ < DateTime.day (jobW2out.next_run.getD ⟨0⟩) :=
  C2_no_same_day_next_run ⟨435600⟩ rand0 jobW2 jobW2out ⟨435600⟩ rfl rfl rfl rfl rfl
    (by decide) rfl

/-- Claim C3, counterexample: a never-run every-2-days job configured
`at 23:59`, recomputed at day 5 08:00 (t = 460800), yields `next_run` at
t = 604740 — day 6 at 23:59, one day back from the baseline day 7, but
NOT on today's date as the claim states. -/
theorem C3_counterexample :
    (Job.schedule_next_run ⟨460800⟩ rand0 jobC3).map Job.next_run
      = Except.ok (some ⟨604740⟩) ∧
    DateTime.day ⟨604740⟩ ≠ DateTime.day ⟨460800⟩ :=
  ⟨rfl, by decide⟩

/-- Claim C3, amended: for a never-run job with unit days, no weekday
constraint, no window and a configured `at_time`, the recomputation
lands on the baseline (`anchor + period`) with the time of day replaced
by `at_time`, shifted back exactly one day when `at_time` is still ahead
of the current clock — which is today's date only for interval 1 with no
start date (witness); otherwise it stays on the baseline date. -/
theorem C3_first_run_shift (now : DateTime) (rand : Rand) (j : Job) (tm : TimeOfDay)
    (hu : j.unit = some TimeUnit.days) (hlr : j.last_run = none)
    (hrd : j.run_days = []) (hbt : j.between_times = none)
    (hat : j.at_time = some tm) :
    (Job.schedule_next_run now rand j).map Job.next_run =
      Except.ok (some (if TimeOfDay.ltB now.timeOfDay tm = true
        then ⟨(DateTime.replaceTime ⟨(j.start_run.getD now).t + ((j.interval * 86400 : Nat) : Int)⟩ tm).t - 86400⟩
        else DateTime.replaceTime ⟨(j.start_run.getD now).t + ((j.interval * 86400 : Nat) : Int)⟩ tm)) := by
  obtain ⟨iv, jf, u, at_, bt, rd, sr, lrv, nr, per⟩ := j
  simp only at hu hlr hrd hbt hat
  subst hu hlr hrd hbt hat
  simp only [Job.schedule_next_run, resolveAtTime, applyAtTime, List.isEmpty,
    TimeUnit.toSeconds, Except.map, Option.getD, if_true]
  split
  · rename_i h
    rw [if_pos h.2.2]
  · rename_i h
    rw [if_neg (fun hx => h ⟨trivial, trivial, hx⟩)]

/-- Claim C3, witness: a never-run daily job (interval 1, no start date)
configured `at 23:59` and recomputed at 08:00 of day 5 gets `next_run`
today at 23:59 (t = 518340 = day 5, 23:59:00). -/
theorem C3_witness :
    (Job.schedule_next_run ⟨460800⟩ rand0 jobW3).map Job.next_run
      = Except.ok (some ⟨518340⟩) := by
  rw [C3_first_run_shift ⟨460800⟩ rand0 jobW3 tAt2359 rfl rfl rfl rfl rfl]
  rfl

/-- Claim C6, amended: an `on()` argument whose parts (split on the pipe)
are a leading substring of no weekday name contributes no OR-group and
raises no error: the call succeeds with `run_days` left empty. -/
theorem C6_on_ignores_unmatched (j : Job) (d : List Char)
    (h : ∀ p ∈ WEEKDAYS, ∀ part ∈ splitPipe d,
          ¬ List.isPrefixOf (part.map lowerChar) p.1 = true) :
    Job.on [d] j = { j with run_days := [] } := by
  have hg : dayOrGroup d = [] := by
    unfold dayOrGroup
    have hf : ∀ part ∈ splitPipe d,
        (WEEKDAYS.filter (fun p => List.isPrefixOf (part.map lowerChar) p.1)) = [] := by
      intro part hp
      apply List.filter_eq_nil_iff.mpr
      intro p hpW
      exact h p hpW part hp
    have hfl : ((splitPipe d).map (fun part =>
        (WEEKDAYS.filter (fun p => List.isPrefixOf (part.map lowerChar) p.1)).map
          (fun p => p.2))).flatten = [] := by
      apply List.flatten_eq_nil_iff.mpr
      intro l hl
      rcases List.mem_map.mp hl with ⟨part, hpart, hEq⟩
      rw [hf part hpart] at hEq
      simpa using hEq.symm
    rw [hfl]
    rfl
  unfold Job.on
  rw [show [d].map dayOrGroup = [[]] by simp [hg]]
  rfl

/-- Claim C6, witness: the amended theorem evaluated on the argument
`"zzz"`, which is a prefix of no weekday name. -/
theorem C6_witness :
    Job.on ["zzz".toList] (Job.init 2) = { Job.init 2 with run_days := [] } :=
  C6_on_ignores_unmatched (Job.init 2) "zzz".toList (by decide)

/-- Claim C7: a job whose `next_run` is strictly in the future fails the
due check, is never handed to the run loop, and therefore sits unchanged
(all fields, hence `last_run` and `next_run`) at its registry position
after `run_pending`, whatever happens to the other jobs. -/
theorem C7_run_pending_frame (now : DateTime) (rand : Rand) (jobs : List Job)
    (i : Nat) (j : Job) (d : DateTime)
    (hji : jobs[i]? = some j) (hnr : j.next_run = some d) (hlt : now.t < d.t) :
    ((Scheduler.run_pending now rand jobs).1)[i]? = some j := by
  unfold Scheduler.run_pending
  rcases hm : mapExcept (fun j => Job.should_run now j) jobs with e | flags
  · exact hji
  · obtain ⟨b, hbi, hfb⟩ := mapExcept_ok_pointwise _ jobs flags hm i j hji
    have hbfalse : b = false := by
      rw [Job.should_run, hnr] at hfb
      simp only [Except.ok.injEq] at hfb
      rw [← hfb]
      simp
      omega
    rw [runLoop_frame now rand _ jobs i ?_]
    · exact hji
    · intro p hp hpi
      have hp2 := mem_sortByNextRun hp
      have hflag := (List.mem_filter.mp hp2).2
      rw [hpi, List.getD_eq_getElem?_getD, hbi, hbfalse] at hflag
      simp at hflag

/-- Claim C7, witness: the theorem evaluated on a one-job registry whose
job is due at t = 100 while the sweep runs at t = 0. -/
theorem C7_witness :
    ((Scheduler.run_pending ⟨0⟩ rand0 [jobC7]).1)[0]? = some jobC7 :=
  C7_run_pending_frame ⟨0⟩ rand0 [jobC7] 0 jobC7 ⟨100⟩ rfl rfl (by decide)

/-- Claim C9: `between()` itself succeeds and stores the parsed pair even
when the end time precedes the start time; the failure only surfaces
inside the next `_schedule_next_run` (thus inside `do()` or a later
`run()`), where `random.randint(0, duration)` rejects the negative
range. -/
theorem C9_between_defers_failure (now : DateTime) (rand : Rand) (j : Job)
    (s e : TimeOfDay) (u : TimeUnit)
    (hu : j.unit = some u) (hlt : e.toSod < s.toSod) :
    (Job.between s e j).between_times = some (s, e) ∧
    Job.schedule_next_run now rand (Job.between s e j)
      = Except.error "ValueError: empty range for randrange" := by
  refine ⟨rfl, ?_⟩
  obtain ⟨iv, jf, u0, at_, bt, rd, sr, lrv, nr, per⟩ := j
  simp only at hu
  subst hu
  simp only [Job.between, Job.schedule_next_run, resolveAtTime]
  rw [if_pos (by omega : ((e.toSod : Int) - (s.toSod : Int)) < 0)]

/-- Claim C9, witness: the theorem evaluated on a days-unit job with the
window `10:00-09:00` (end before start), recomputed at t = 0. -/
theorem C9_witness :
    (Job.between t1000 t0900 jobC9).between_times = some (t1000, t0900) ∧
    Job.schedule_next_run ⟨0⟩ rand0 (Job.between t1000 t0900 jobC9)
      = Except.error "ValueError: empty range for randrange" :=
  C9_between_defers_failure ⟨0⟩ rand0 jobC9 t1000 t0900 TimeUnit.days rfl (by decide)

end Schedule
